import Mathlib

/-!
Verification of the client-side library state engine of the game library
manager (source: `src/static/app.js`).  JavaScript values flowing through the
engine are modelled by the inductive `JVal`; stateful module-level globals are
gathered into explicit state records, and every operation is an explicit state
transformation.  Ghost counters in the state record the externally visible
effects (render passes, cache writes, autosaves) so that "exactly one render
pass" style properties are statable.
-/

namespace GameLib

/-- A JavaScript number: a finite value (JS floats are modelled exactly as
rationals), `NaN`, or a signed infinity. -/
inductive JNum where
  | fin (q : ℚ)
  | nan
  | inf
  | ninf
deriving DecidableEq, Repr

/-- A JavaScript value as it appears in game records: `null`, `undefined`,
booleans, numbers, strings, or arrays.  (Plain nested objects never occur in
the fields the engine reads.) -/
inductive JVal where
  | null
  | undef
  | bool (b : Bool)
  | num (n : JNum)
  | str (s : String)
  | arr (elems : List JVal)
deriving Repr

mutual

/-- Structural equality test for `JVal` (used to derive decidable equality
through the nested `List`). -/
def JVal.beq : JVal → JVal → Bool
  | .null, .null => true
  | .undef, .undef => true
  | .bool a, .bool b => a == b
  | .num a, .num b => a == b
  | .str a, .str b => a == b
  | .arr a, .arr b => JVal.beqList a b
  | _, _ => false

/-- Pointwise `JVal.beq` on lists. -/
def JVal.beqList : List JVal → List JVal → Bool
  | [], [] => true
  | a :: as, b :: bs => JVal.beq a b && JVal.beqList as bs
  | _, _ => false

end

mutual

theorem JVal.beq_correct : ∀ a b : JVal, JVal.beq a b = true ↔ a = b
  | .null, b => by cases b <;> simp [JVal.beq]
  | .undef, b => by cases b <;> simp [JVal.beq]
  | .bool x, b => by cases b <;> simp [JVal.beq]
  | .num x, b => by cases b <;> simp [JVal.beq]
  | .str x, b => by cases b <;> simp [JVal.beq]
  | .arr xs, b => by
      cases b <;> simp [JVal.beq]
      exact JVal.beqList_correct xs _

theorem JVal.beqList_correct : ∀ as bs : List JVal, JVal.beqList as bs = true ↔ as = bs
  | [], bs => by cases bs <;> simp [JVal.beqList]
  | a :: as, bs => by
      cases bs with
      | nil => simp [JVal.beqList]
      | cons b bs =>
          simp only [JVal.beqList, Bool.and_eq_true, List.cons.injEq]
          rw [JVal.beq_correct a b, JVal.beqList_correct as bs]

end

instance : DecidableEq JVal := fun a b =>
  decidable_of_iff (JVal.beq a b = true) (JVal.beq_correct a b)

/-- JS truthiness: `null`, `undefined`, `false`, `0`, `NaN` and `""` are
falsy; every other value (including any array) is truthy. -/
def JVal.truthy : JVal → Bool
  | .null => false
  | .undef => false
  | .bool b => b
  | .num (.fin q) => q ≠ 0
  | .num .nan => false
  | .num _ => true
  | .str s => s ≠ ""
  | .arr _ => true

/-- JS nullish test (`??` fires on exactly these). -/
def JVal.isNullish : JVal → Bool
  | .null => true
  | .undef => true
  | _ => false

/-- The JS nullish-coalescing operator `a ?? b`. -/
def jsNullish (a b : JVal) : JVal :=
  if a.isNullish then b else a

/-- The JS logical-or operator `a || b` (value-returning). -/
def jsOr (a b : JVal) : JVal :=
  if a.truthy then a else b

/-- String rendering of a finite JS number (integers print without a decimal
part; other rationals only ever feed equality tests against non-numeric
strings, so their exact digit expansion is immaterial and `Rat`'s rendering is
used). -/
def JNum.render : JNum → String
  | .fin q => if q.den = 1 then toString q.num else toString q
  | .nan => "NaN"
  | .inf => "Infinity"
  | .ninf => "-Infinity"

/-- ASCII lowercase of one character (JS `toLowerCase` restricted to the
ASCII letters the engine's enum values, store names and genre labels use). -/
def charLower (c : Char) : Char :=
  if 'A' ≤ c ∧ c ≤ 'Z' then Char.ofNat (c.toNat + 32) else c

/-- ASCII-lowercase, modelling JS `toLowerCase()` on the strings the engine
compares (status values, store names, genre labels). -/
def jsLower (s : String) : String := String.mk (s.data.map charLower)

/-- JS `String.prototype.trim`. -/
def strTrim (s : String) : String :=
  String.mk
    (((s.data.dropWhile Char.isWhitespace).reverse.dropWhile
        Char.isWhitespace).reverse)

/-- Lexicographic comparison of strings by code point (the default-locale
collation of `localeCompare` restricted to the app's ASCII data). -/
def charsCompare : List Char → List Char → Ordering
  | [], [] => .eq
  | [], _ :: _ => .lt
  | _ :: _, [] => .gt
  | c :: cs, d :: ds =>
      if c < d then .lt else if d < c then .gt else charsCompare cs ds

/-- Comparison of two strings. -/
def strCompare (a b : String) : Ordering := charsCompare a.data b.data

/-- Split a character list on a separator character (`String.split`). -/
def splitOnChar (sep : Char) : List Char → List (List Char)
  | [] => [[]]
  | c :: rest =>
      let r := splitOnChar sep rest
      if c = sep then [] :: r
      else
        match r with
        | h :: t => (c :: h) :: t
        | [] => [[c]]

/-- Join strings with a separator (`Array.prototype.join`). -/
def joinSep (sep : String) : List String → String
  | [] => ""
  | [x] => x
  | x :: xs => x ++ sep ++ joinSep sep xs

mutual

/-- JS `toString()` / template-literal stringification of a value. -/
def JVal.render : JVal → String
  | .null => "null"
  | .undef => "undefined"
  | .bool b => if b then "true" else "false"
  | .num n => n.render
  | .str s => s
  | .arr elems => joinSep "," (JVal.renderList elems)

/-- Stringification of each element of an array (JS array `toString` joins
the rendered elements with commas). -/
def JVal.renderList : List JVal → List String
  | [] => []
  | v :: vs => v.render :: JVal.renderList vs

end

/-- Parse an unsigned decimal digit string. -/
def decDigits? (s : List Char) : Option ℕ :=
  if s ≠ [] ∧ s.all Char.isDigit then
    some (s.foldl (fun n c => n * 10 + (c.toNat - 48)) 0)
  else none

/-- Model of JS `Number(string)` restricted to the shapes the app can ever
meet: optional sign, decimal digits with an optional fractional part, the
empty/whitespace string (`0`), and `Infinity`; anything else is `NaN`. -/
def jsStringToNumber (s : String) : JNum :=
  let t := (strTrim s).data
  if t = [] then .fin 0 else
  let (neg, body) :=
    match t with
    | '-' :: rest => (true, rest)
    | '+' :: rest => (false, rest)
    | _ => (false, t)
  if body = "Infinity".data then (if neg then .ninf else .inf) else
  let core :=
    match splitOnChar '.' body with
    | [ip] =>
        (decDigits? ip).map (fun n => (n : ℚ))
    | [ip, fp] =>
        match decDigits? ip, decDigits? fp with
        | some n, some f => some ((n : ℚ) + (f : ℚ) / ((10 : ℚ) ^ fp.length))
        | _, _ => none
    | _ => none
  match core with
  | some q => .fin (if neg then -q else q)
  | none => .nan

/-- Model of JS `Number(value)` numeric coercion. -/
def jsToNumber : JVal → JNum
  | .null => .fin 0
  | .undef => .nan
  | .bool b => .fin (if b then 1 else 0)
  | .num n => n
  | .str s => jsStringToNumber s
  | .arr [] => .fin 0
  | .arr [v] => jsStringToNumber v.render
  | .arr _ => .nan

/-- `toLowerCase()` applied to a JS value: faithful on strings; on non-string
values (where JS would throw a `TypeError` — unreachable for the app's
string-valued fields, and excluded by hypothesis in the theorems below) the
value is stringified first. -/
def jsLowerVal (v : JVal) : String := jsLower v.render

/-- A game record as the client holds it: the JS object's fields, each an
arbitrary JS value, plus the client-local identifier `__id` (modelled as a
session counter value; `none` while not yet assigned) and a bag of any
further properties carried along by object spread. -/
structure RawGame where
  title : JVal := .undef
  platform : JVal := .undef
  source : JVal := .undef
  description : JVal := .undef
  cover_url : JVal := .undef
  thumbnail_url : JVal := .undef
  trailer_url : JVal := .undef
  rating : JVal := .undef
  rating_match_title : JVal := .undef
  status : JVal := .undef
  finish_count : JVal := .undef
  finishCount : JVal := .undef
  finish : JVal := .undef
  gallery_urls : JVal := .undef
  genres : JVal := .undef
  record_id : JVal := .undef
  __id : Option ℕ := none
  extra : List (String × JVal) := []
deriving DecidableEq, Repr

/-- `DEFAULT_STATUS` from app.js. -/
def DEFAULT_STATUS : String := "not_allocated"

/-- The `value` column of `STATUS_OPTIONS` from app.js. -/
def statusValues : List String :=
  ["not_allocated", "backlog", "playing", "finished", "replaying"]

/-- `sanitizeStatus` (app.js:72): falsy input defaults; otherwise the
stringified, lowercased value must be one of the status enum values, and
anything unrecognized defaults. -/
def sanitizeStatus (value : JVal) : String :=
  if !value.truthy then DEFAULT_STATUS
  else
    let normalized := jsLower value.render
    if statusValues.any (· == normalized) then normalized else DEFAULT_STATUS

/-- `clampFinishCount` (app.js:80): numeric coercion, rejecting non-finite or
negative values as 0, flooring the rest. -/
def clampFinishCount (value : JVal) : ℤ :=
  match jsToNumber value with
  | .fin q => if q < 0 then 0 else ⌊q⌋
  | _ => 0

/-- `normalizeGame` (app.js:88): spreads the input, defaults a nullish
gallery to `[]`, sanitizes the status, clamps the finish count taken from
`finish_count ?? finishCount ?? finish ?? 0`, and replaces `genres` by the
truthy entries of the input array (or `[]` when not an array). -/
def normalizeGame (game : RawGame) : RawGame :=
  let finishValue :=
    jsNullish game.finish_count
      (jsNullish game.finishCount (jsNullish game.finish (.num (.fin 0))))
  { game with
    gallery_urls := jsNullish game.gallery_urls (.arr [])
    status := .str (sanitizeStatus game.status)
    finish_count := .num (.fin (clampFinishCount finishValue))
    genres :=
      match game.genres with
      | .arr gs => .arr (gs.filter JVal.truthy)
      | _ => .arr [] }

/-- `serializeGames` (app.js:248): normalize each incoming record and assign
it a fresh client-local id (the `Date.now()`/counter pair is modelled by the
monotone counter alone).  Returns the serialized list and the new counter. -/
def serializeGames (games : List RawGame) (gameIdCounter : ℕ) :
    List RawGame × ℕ :=
  match games with
  | [] => ([], gameIdCounter)
  | g :: gs =>
      let g' := { normalizeGame g with __id := some gameIdCounter }
      let (rest, c') := serializeGames gs (gameIdCounter + 1)
      (g' :: rest, c')

/-- Scan for `needle` at each position of the haystack. -/
def includesAux (needle : List Char) : List Char → Bool
  | [] => needle.isEmpty
  | c :: rest => needle.isPrefixOf (c :: rest) || includesAux needle rest

/-- JS `String.prototype.includes` (substring test). -/
def jsIncludes (hay needle : String) : Bool :=
  includesAux needle.data hay.data

/-- The title sort key: `(a.title || "")` under a base-sensitivity (i.e.
case-insensitive) locale compare, modelled as comparing lowercased strings. -/
def titleKey (g : RawGame) : String := jsLowerVal (jsOr g.title (.str ""))

/-- `compareTitles` (app.js:986) as an `Ordering` (`lt` = a sorts first). -/
def compareTitles (a b : RawGame) : Ordering :=
  strCompare (titleKey a) (titleKey b)

/-- The sort modes of the engine (`state.sortMode`). -/
inductive SortMode where
  | alphabetical
  | score
  | random
deriving DecidableEq, Repr

/-- The rating key of the score sort: `typeof rating === "number" ? rating :
-Infinity` (`NaN` and the infinities have JS type "number"). -/
def ratingKey (g : RawGame) : JNum :=
  match g.rating with
  | .num n => n
  | _ => .ninf

/-- JS `!==` on numbers: `NaN` is unequal to everything including itself. -/
def jnumStrictNe (a b : JNum) : Bool :=
  match a, b with
  | .fin x, .fin y => x ≠ y
  | .nan, _ => true
  | _, .nan => true
  | .inf, .inf => false
  | .ninf, .ninf => false
  | _, _ => true

/-- The sign of the JS subtraction `a - b` as a comparator result; the
`NaN`-producing cases map to `eq` because the sort algorithm treats a `NaN`
comparator value as `+0`. -/
def jnumSubSign (a b : JNum) : Ordering :=
  match a, b with
  | .fin x, .fin y => compare x y
  | .nan, _ => .eq
  | _, .nan => .eq
  | .inf, .inf => .eq
  | .ninf, .ninf => .eq
  | .inf, _ => .gt
  | _, .inf => .lt
  | .ninf, _ => .lt
  | _, .ninf => .gt

/-- The score-mode comparator (app.js:999): descending rating (missing
ratings keyed `-Infinity` sort last), ties broken by the title compare. -/
def scoreCompare (a b : RawGame) : Ordering :=
  if jnumStrictNe (ratingKey b) (ratingKey a) then
    jnumSubSign (ratingKey b) (ratingKey a)
  else compareTitles a b

/-- Swap two positions of a list (out-of-range indices leave it unchanged). -/
def listSwap (l : List α) (i j : ℕ) : List α :=
  match l[i]?, l[j]? with
  | some a, some b => (l.set i b).set j a
  | _, _ => l

/-- The Fisher–Yates loop of `sortGames` in random mode, counting `i` down;
`rand i % (i + 1)` models `Math.floor(Math.random() * (i + 1))`. -/
def fisherYatesAux (rand : ℕ → ℕ) (l : List α) : ℕ → List α
  | 0 => l
  | i + 1 => fisherYatesAux rand (listSwap l (i + 1) (rand (i + 1) % (i + 2))) i

/-- The full shuffle: run the loop from `length - 1` down to `1`. -/
def fisherYates (rand : ℕ → ℕ) (l : List α) : List α :=
  match l.length with
  | 0 => l
  | n + 1 => fisherYatesAux rand l n

/-- Insert `x` before the first element not strictly smaller than it; since
`x` precedes the tail elements in the original list, placing it before equal
elements preserves their relative order. -/
def jsSortInsert (le : α → α → Bool) (x : α) : List α → List α
  | [] => [x]
  | y :: ys => if le x y then x :: y :: ys else y :: jsSortInsert le x ys

/-- A stable ascending sort (insertion sort), modelling JS
`Array.prototype.sort` with a comparator via `le a b := compare a b ≠ gt`. -/
def jsStableSort (le : α → α → Bool) : List α → List α
  | [] => []
  | x :: xs => jsSortInsert le x (jsStableSort le xs)

/-- `sortGames` (app.js:989), with the `Math.random` stream passed in
explicitly. -/
def sortGames (rand : ℕ → ℕ) (sortMode : SortMode) (games : List RawGame) :
    List RawGame :=
  match sortMode with
  | .random => fisherYates rand games
  | .score => jsStableSort (fun a b => scoreCompare a b ≠ .gt) games
  | .alphabetical => jsStableSort (fun a b => compareTitles a b ≠ .gt) games

theorem count_set [DecidableEq α] (l : List α) (i : ℕ) (b : α) (x : α)
    (h : i < l.length) :
    (l.set i b).count x + (if l[i] = x then 1 else 0) =
      l.count x + (if b = x then 1 else 0) := by
  induction l generalizing i with
  | nil => simp at h
  | cons c rest ih =>
      cases i with
      | zero => simp [List.count_cons]; omega
      | succ i =>
          have h' : i < rest.length := by simpa using h
          have := ih i h'
          simp only [List.set_cons_succ, List.count_cons, List.getElem_cons_succ]
          omega

theorem set_set_perm [DecidableEq α] (l : List α) (i j : ℕ)
    (hil : i < l.length) (hjl : j < l.length) :
    ((l.set i l[j]).set j l[i]).Perm l := by
  rw [List.perm_iff_count]
  intro x
  have hjl2 : j < (l.set i l[j]).length := by simpa using hjl
  have h1 := count_set (l.set i l[j]) j l[i] x hjl2
  have h2 := count_set l i l[j] x hil
  by_cases hij : i = j
  · subst hij
    simp only [List.getElem_set_self] at h1
    omega
  · have hg : (l.set i l[j])[j] = l[j] := by
      rw [List.getElem_set]
      simp [hij]
    rw [hg] at h1
    omega

theorem listSwap_perm [DecidableEq α] (l : List α) (i j : ℕ) :
    (listSwap l i j).Perm l := by
  unfold listSwap
  split
  · next a b hi hj =>
      obtain ⟨hil, ha⟩ := List.getElem?_eq_some_iff.mp hi
      obtain ⟨hjl, hb⟩ := List.getElem?_eq_some_iff.mp hj
      rw [← ha, ← hb]
      exact set_set_perm l i j hil hjl
  · exact List.Perm.refl l

theorem fisherYatesAux_perm [DecidableEq α] (rand : ℕ → ℕ) (l : List α)
    (n : ℕ) : (fisherYatesAux rand l n).Perm l := by
  induction n generalizing l with
  | zero => exact List.Perm.refl l
  | succ n ih =>
      exact (ih _).trans (listSwap_perm l (n + 1) (rand (n + 1) % (n + 2)))

theorem fisherYates_perm [DecidableEq α] (rand : ℕ → ℕ) (l : List α) :
    (fisherYates rand l).Perm l := by
  unfold fisherYates
  cases l.length with
  | zero => exact List.Perm.refl l
  | succ n => exact fisherYatesAux_perm rand l n

theorem jsSortInsert_perm (le : α → α → Bool) (x : α) (l : List α) :
    (jsSortInsert le x l).Perm (x :: l) := by
  induction l with
  | nil => exact List.Perm.refl _
  | cons y ys ih =>
      unfold jsSortInsert
      split
      · exact List.Perm.refl _
      · exact (List.Perm.cons y ih).trans (List.Perm.swap x y ys)

theorem jsStableSort_perm (le : α → α → Bool) (l : List α) :
    (jsStableSort le l).Perm l := by
  induction l with
  | nil => exact List.Perm.refl _
  | cons x xs ih =>
      exact (jsSortInsert_perm le x (jsStableSort le xs)).trans
        (List.Perm.cons x ih)

theorem sortGames_perm (rand : ℕ → ℕ) (sortMode : SortMode)
    (games : List RawGame) : (sortGames rand sortMode games).Perm games := by
  cases sortMode with
  | random => exact fisherYates_perm rand games
  | score => exact jsStableSort_perm _ games
  | alphabetical => exact jsStableSort_perm _ games

/-- `UNKNOWN_GENRE_VALUE` (app.js:62). -/
def UNKNOWN_GENRE_VALUE : String := "__unknown"

/-- `UNKNOWN_GENRE_LABEL` (app.js:63). -/
def UNKNOWN_GENRE_LABEL : String := "Unknown genre"

/-- `STATUS_LABEL_LOOKUP` (app.js:54): label of a status enum value. -/
def statusLabel : String → Option String
  | "not_allocated" => some "Not allocated"
  | "backlog" => some "Backlog"
  | "playing" => some "Playing"
  | "finished" => some "Finished"
  | "replaying" => some "Replaying"
  | _ => none

/-- `STATUS_FILTER_LABELS` (app.js:58): the label lookup extended with the
exclude-default pseudo-status. -/
def statusFilterLabel (v : String) : Option String :=
  if v = "without_not_allocated" then some "Everything but Not allocated"
  else statusLabel v

/-- A search suggestion as returned by the search backend. -/
structure Candidate where
  title : JVal := .undef
  description : JVal := .undef
  record_id : JVal := .undef
deriving DecidableEq, Repr

/-- `pendingRefineSelection`: the chosen candidate spread together with the
`__matchIndex` recorded on click (app.js:696). -/
structure RefineSelection where
  candidate : Candidate
  __matchIndex : ℕ
deriving DecidableEq, Repr

/-- The module-level mutable state of app.js gathered into one record,
together with ghost effect counters: `renderCount` counts `renderGrid`
invocations (one per `applyFilter`), `cacheWrites` counts localStorage cache
writes, `autosaveCount` counts fired autosave requests. -/
structure AppState where
  games : List RawGame := []
  filtered : List RawGame := []
  selection : Option RawGame := none
  selectedIds : List ℕ := []
  query : String := ""
  sortMode : SortMode := .alphabetical
  storeFilter : String := ""
  statusFilter : String := ""
  genreFilter : String := ""
  storeOptions : List String := []
  genreOptions : List String := []
  genreHasUnknown : Bool := false
  profilePath : Option String := none
  gameIdCounter : ℕ := 0
  pendingRefineId : Option ℕ := none
  pendingRefineSelection : Option RefineSelection := none
  pendingRefineMatches : List Candidate := []
  refineDialogHidden : Bool := true
  statusMsg : String := ""
  statusIsError : Bool := false
  cache : Option (List RawGame) := none
  renderCount : ℕ := 0
  cacheWrites : ℕ := 0
  autosaveCount : ℕ := 0
deriving DecidableEq, Repr

/-- `showStatus` (app.js:234). -/
def showStatus (message : String) (isError : Bool) (s : AppState) : AppState :=
  { s with statusMsg := message, statusIsError := isError }

/-- `persistGameCache` (app.js:257): remove the cache entry when the library
is empty, else overwrite it wholesale with the current library. -/
def persistGameCache (s : AppState) : AppState :=
  if s.games.isEmpty then { s with cache := none, cacheWrites := s.cacheWrites + 1 }
  else { s with cache := some s.games, cacheWrites := s.cacheWrites + 1 }

/-- `autoSaveProfile` (app.js:1234): fire-and-forget save when a profile path
is set and the library is non-empty; failures are swallowed. -/
def autoSaveProfile (s : AppState) : AppState :=
  if s.profilePath.isSome && !s.games.isEmpty then
    { s with autosaveCount := s.autosaveCount + 1 }
  else s

/-- `(v || "")` followed by a string operation. -/
def jsOrEmptyStr (v : JVal) : String := (jsOr v (.str "")).render

/-- Keep the first occurrence of each element (JS `Set` insertion order). -/
def dedupKeepFirst : List String → List String
  | [] => []
  | x :: xs => x :: dedupKeepFirst (xs.filter (· ≠ x))
termination_by l => l.length
decreasing_by
  simp only [List.length_cons]
  exact Nat.lt_succ_of_le (List.length_filter_le _ _)

/-- Sort strings by the base-sensitivity locale compare (modelled as
case-insensitive lexicographic order, stable). -/
def sortStringsBase (l : List String) : List String :=
  jsStableSort (fun a b => strCompare (jsLower a) (jsLower b) ≠ .gt) l

/-- `updateStoreFilterOptions` (app.js:273): recompute the distinct, sorted
store names and drop the active store filter when its value disappeared. -/
def updateStoreFilterOptions (s : AppState) : AppState :=
  let normalizedTarget := jsLower s.storeFilter
  let stores :=
    sortStringsBase (dedupKeepFirst
      ((s.games.map (fun g => strTrim (jsOrEmptyStr g.source))).filter (· ≠ "")))
  let storeFilter' :=
    if normalizedTarget ≠ "" then
      match stores.find? (fun st => jsLower st == normalizedTarget) with
      | none => ""
      | some st => st
    else s.storeFilter
  { s with storeOptions := stores, storeFilter := storeFilter' }

/-- Insert-or-replace on an association list, keeping the original insertion
position on replacement (JS `Map.prototype.set`). -/
def upsert : List (String × String) → String → String → List (String × String)
  | [], k, v => [(k, v)]
  | (k', v') :: rest, k, v =>
      if k' = k then (k', v) :: rest else (k', v') :: upsert rest k v

/-- The genre-collection fold of `updateGenreFilterOptions` (app.js:318):
lowercased-key map of truthy genres plus the has-unknown flag. -/
def collectGenres (games : List RawGame) : List (String × String) × Bool :=
  games.foldl
    (fun (acc : List (String × String) × Bool) g =>
      let genres := match g.genres with | .arr gs => gs | _ => []
      if genres.isEmpty then (acc.1, true)
      else
        (genres.foldl
          (fun pairs genre =>
            if !genre.truthy then pairs
            else upsert pairs (jsLowerVal genre) genre.render)
          acc.1,
         acc.2))
    ([], false)

/-- `updateGenreFilterOptions` (app.js:309): recompute the distinct sorted
genre labels and the unknown-genre option, and drop the active genre filter
when it no longer has a matching option. -/
def updateGenreFilterOptions (s : AppState) : AppState :=
  let genreFilter₀ := if s.games.isEmpty then "" else s.genreFilter
  let normalizedTarget := jsLower genreFilter₀
  let (pairs, hasUnknown) := collectGenres s.games
  let genres := sortStringsBase (pairs.map Prod.snd)
  let genreFilter' :=
    if genreFilter₀ ≠ "" then
      if genreFilter₀ = UNKNOWN_GENRE_VALUE then
        if hasUnknown then genreFilter₀ else ""
      else if genres.any (fun g => jsLower g == normalizedTarget) then genreFilter₀
      else ""
    else genreFilter₀
  { s with genreOptions := genres, genreHasUnknown := hasUnknown,
           genreFilter := genreFilter' }

/-- The per-game filter test of `applyFilter` (app.js:1062-1083); the string
filter arguments arrive already lowercased exactly as in the source. -/
def applyFilterPred (query storeFilter statusFilter genreFilter : String)
    (game : RawGame) : Bool :=
  let haystack :=
    jsLower (game.title.render ++ " " ++ (jsNullish game.platform (.str "")).render
      ++ " " ++ (jsNullish game.source (.str "")).render ++ " "
      ++ game.description.render)
  let matchesQuery := query == "" || jsIncludes haystack query
  let matchesStore :=
    storeFilter == "" || jsLowerVal (jsOr game.source (.str "")) == storeFilter
  let gameStatus := sanitizeStatus game.status
  let matchesStatus :=
    statusFilter == "" ||
      (if statusFilter == "without_not_allocated" then gameStatus != DEFAULT_STATUS
       else gameStatus == statusFilter)
  let genres := match game.genres with | .arr gs => gs | _ => []
  let normalizedGenres := genres.map jsLowerVal
  let matchesGenre :=
    genreFilter == "" ||
      (if genreFilter == UNKNOWN_GENRE_VALUE then normalizedGenres.isEmpty
       else normalizedGenres.contains (jsLower genreFilter))
  matchesQuery && matchesStore && matchesStatus && matchesGenre

/-- `describeStatusFilter` (app.js:1014). -/
def describeStatusFilter (value : String) : Option String :=
  if value = "" then none
  else match statusFilterLabel value with
    | some l => some l
    | none => statusLabel value

/-- `describeGenreFilter` (app.js:1019). -/
def describeGenreFilter (value : String) : Option String :=
  if value = "" then none
  else if value = UNKNOWN_GENRE_VALUE then some UNKNOWN_GENRE_LABEL
  else some value

/-- `buildFilterMessage` (app.js:1027). -/
def buildFilterMessage (count : ℕ) (query storeFilterLabel statusFilterValue
    genreFilterValue : String) : String :=
  let activeFilters :=
    (if query ≠ "" then ["“" ++ query ++ "”"] else []) ++
    (if storeFilterLabel ≠ "" then [storeFilterLabel] else []) ++
    ((describeStatusFilter statusFilterValue).toList) ++
    ((describeGenreFilter genreFilterValue).toList)
  let joined := joinSep " · " activeFilters
  if activeFilters.isEmpty then s!"Displaying {count} games."
  else s!"Showing {count} games ({joined})."

/-- `applyFilter` (app.js:1055): filter the library by the conjunction of the
active filters, sort, re-render (ghost `renderCount`), and show the filter
message unless silenced. -/
def applyFilter (rand : ℕ → ℕ) (silentStatus : Bool) (s : AppState) :
    AppState :=
  let queryRaw := strTrim s.query
  let query := jsLower queryRaw
  let storeFilter := jsLower s.storeFilter
  let statusFilter := s.statusFilter
  let genreFilter := s.genreFilter
  let filtered₀ :=
    s.games.filter (applyFilterPred query storeFilter statusFilter genreFilter)
  let filtered := sortGames rand s.sortMode filtered₀
  let s' := { s with filtered := filtered, renderCount := s.renderCount + 1 }
  let message :=
    buildFilterMessage filtered.length queryRaw s.storeFilter statusFilter
      genreFilter
  if silentStatus then s' else showStatus message false s'

/-- The `updates` argument of `updateGameMetadata`: the fields the app ever
passes (`{status}` or `{finish_count}`). -/
structure MetaUpdates where
  status : Option JVal := none
  finish_count : Option JVal := none
deriving DecidableEq, Repr

/-- The options argument of `updateGameMetadata`. -/
structure MetaOpts where
  message : Option String := none
  silent : Bool := false
  deferFilter : Bool := false
deriving DecidableEq, Repr

/-- Object spread `{...game, ...updates}`. -/
def applyUpdates (g : RawGame) (u : MetaUpdates) : RawGame :=
  { g with status := u.status.getD g.status,
           finish_count := u.finish_count.getD g.finish_count }

/-- The selection refresh inside `updateGameMetadata` (app.js:454):
`state.selection?.__id === gameId` swaps the merged record into the current
selection (the accompanying genre-tag rerender is DOM-only). -/
def refreshSelection (gid : ℕ) (merged : RawGame) (s : AppState) : AppState :=
  match s.selection with
  | some sel =>
      if sel.__id == some gid then { s with selection := some merged } else s
  | none => s

/-- `updateGameMetadata` (app.js:443): locate the game by client-local id
(`null` and unknown ids are complete no-ops), swap in the normalized merged
record copy-on-write, refresh the selection and the filter option lists,
re-filter unless deferred, persist the cache, and fire an autosave. -/
def updateGameMetadata (rand : ℕ → ℕ) (s : AppState) (gameId : Option ℕ)
    (updates : MetaUpdates) (opts : MetaOpts) : Option RawGame × AppState :=
  match gameId with
  | none => (none, s)
  | some gid =>
      match s.games.findIdx? (fun g => g.__id == some gid) with
      | none => (none, s)
      | some index =>
          match s.games[index]? with
          | none => (none, s)  -- unreachable: findIdx? returns in-range indices
          | some old =>
              let merged := normalizeGame (applyUpdates old updates)
              let s := { s with games := s.games.set index merged }
              let s := refreshSelection gid merged s
              let s := updateStoreFilterOptions s
              let s := updateGenreFilterOptions s
              let shouldSilence := opts.silent || opts.message.isSome
              let s :=
                if !opts.deferFilter then applyFilter rand shouldSilence s else s
              let s := persistGameCache s
              let s := autoSaveProfile s
              let s :=
                match opts.message with
                | some m => showStatus m false s
                | none => s
              (some merged, s)

/-- The `{ status: nextStatus }` updates object of `applyBulkStatus`. -/
def statusUpdate (nextStatus : String) : MetaUpdates :=
  { status := some (.str nextStatus) }

/-- The body of the `selectedIds.forEach` loop in `applyBulkStatus`
(app.js:423-432): one silent, deferred-recompute status mutation, counting
the games actually updated. -/
def bulkStep (rand : ℕ → ℕ) (nextStatus : String) (acc : AppState × ℕ)
    (id : ℕ) : AppState × ℕ :=
  let r :=
    updateGameMetadata rand acc.1 (some id) (statusUpdate nextStatus)
      { silent := true, deferFilter := true }
  (r.2, if r.1.isSome then acc.2 + 1 else acc.2)

/-- `applyBulkStatus` (app.js:411): sanitize the chosen status, push it into
every selected game through `updateGameMetadata` in silent deferred-recompute
mode, then run exactly one `applyFilter` pass and report. -/
def applyBulkStatus (rand : ℕ → ℕ) (desired : String) (s : AppState) :
    AppState :=
  if s.selectedIds.isEmpty then
    showStatus "Select at least one game first." true s
  else if desired == "" then
    showStatus "Choose a status before applying." true s
  else
    let nextStatus := sanitizeStatus (.str desired)
    let result := s.selectedIds.foldl (bulkStep rand nextStatus) (s, 0)
    let s := result.1
    let updatedCount := result.2
    if updatedCount ≠ 0 then
      let s := applyFilter rand true s
      let label := (statusLabel nextStatus).getD "Not allocated"
      showStatus s!"Updated {updatedCount} game(s) to {label}." false s
    else
      showStatus "No games were updated." true s

/-- `cancelRefineDialog` (app.js:655): forget the pending refine target,
selection and candidate list, and hide the dialog. -/
def cancelRefineDialog (s : AppState) : AppState :=
  { s with pendingRefineId := none, pendingRefineSelection := none,
           pendingRefineMatches := [], refineDialogHidden := true }

/-- The payload of the `/api/games/create` refine request (app.js:753). -/
structure RefineRequest where
  title : JVal
  platform : JVal
  source : JVal
  record_id : JVal
deriving DecidableEq, Repr

/-- The synchronous part of `confirmRefineDialog` (app.js:741) up to the
`fetch`: bail out silently without a pending id and selection, cancel the
dialog when the target id no longer exists, otherwise show the progress
message and issue the request (returned together with the captured id). -/
def confirmRefinePre (s : AppState) : Option (ℕ × RefineRequest) × AppState :=
  match s.pendingRefineId, s.pendingRefineSelection with
  | some gid, some sel =>
      match s.games.find? (fun g => g.__id == some gid) with
      | none => (none, cancelRefineDialog s)
      | some existing =>
          (some (gid,
             ⟨sel.candidate.title, existing.platform, existing.source,
              sel.candidate.record_id⟩),
           showStatus "Refreshing metadata…" false s)
  | _, _ => (none, s)

/-- The continuation of `confirmRefineDialog` after the response arrives,
applied to the state current at that moment (the library may have changed
during the await).  On success the backend record is serialized, its fresh id
overwritten by the captured one, and swapped into the library at the target's
index — only if the captured id still exists; on failure the error message is
surfaced.  Either way, the `finally` block cancels the dialog. -/
def confirmRefinePost (rand : ℕ → ℕ) (capturedId : ℕ)
    (response : Except String RawGame) (s : AppState) : AppState :=
  match response with
  | .error msg => cancelRefineDialog (showStatus msg true s)
  | .ok updatedGame =>
      match serializeGames [updatedGame] s.gameIdCounter with
      | (ser :: _, counter') =>
          let serialized := { ser with __id := some capturedId }
          let s := { s with gameIdCounter := counter' }
          match s.games.findIdx? (fun g => g.__id == some capturedId) with
          | some index =>
              let s := { s with games := s.games.set index serialized,
                                selection := some serialized }
              let s := updateStoreFilterOptions s
              let s := updateGenreFilterOptions s
              let s := applyFilter rand false s
              let s := persistGameCache s
              let s := showStatus (serialized.title.render ++ " updated.") false s
              let s := autoSaveProfile s
              cancelRefineDialog s
          | none => cancelRefineDialog s
      | ([], _) => s  -- unreachable: serializeGames preserves length

/-! ### Incremental renderer (`renderGrid` / `streamRender`, app.js:923-980)

`streamRender` is an async function: each call to `renderGrid` increments the
global `renderGeneration`, wipes the grid, synchronously emits the first
batch, and then suspends at the `requestAnimationFrame` await, leaving a
suspended task.  The cooperative scheduler later resumes suspended tasks in
any order; a resumed task whose captured generation no longer equals the
global counter aborts without touching the grid, while the live task emits
one batch per resume and finalizes (hiding the loading indicator) once its
queue is exhausted. -/

/-- `BATCH_SIZE` (app.js:140). -/
def BATCH_SIZE : ℕ := 24

/-- A `streamRender` invocation suspended at its inter-batch await: the
captured generation and the not-yet-rendered remainder of its list. -/
structure RenderTask (α : Type) where
  gen : ℕ
  queue : List α
deriving DecidableEq, Repr

/-- The renderer's shared state: the `renderGeneration` counter, the grid
contents, the loading indicator, the suspended tasks, and (ghost) the list of
generations that ran their post-loop finalization. -/
structure RenderState (α : Type) where
  generation : ℕ := 0
  grid : List α := []
  indicator : Bool := false
  tasks : List (RenderTask α) := []
  finalized : List ℕ := []
deriving DecidableEq, Repr

/-- One synchronous `renderGrid(games)` call (app.js:923): bump the
generation, clear the grid; an empty list short-circuits (message grid,
indicator hidden, no task); otherwise show the indicator and run
`streamRender` up to its first await, which emits the first batch and
suspends the remainder as a task. -/
def renderGridCall (s : RenderState α) (games : List α) : RenderState α :=
  let gen := s.generation + 1
  if games.isEmpty then
    { s with generation := gen, grid := [], indicator := false }
  else
    { s with generation := gen,
             grid := games.take BATCH_SIZE,
             indicator := true,
             tasks := s.tasks ++ [⟨gen, games.drop BATCH_SIZE⟩] }

/-- A burst of `renderGrid` calls with no intervening await: the calls run
back to back, none of the suspended tasks getting a chance to resume. -/
def renderBurst (s : RenderState α) (calls : List (List α)) : RenderState α :=
  calls.foldl renderGridCall s

/-- Resume the `i`-th suspended task (one trip through the `streamRender`
loop, app.js:943-962): a stale generation aborts, dropping the task; a live
task with an exhausted queue finalizes (hides the indicator, records its
generation); a live task with work left emits one batch and suspends
again. -/
def resumeTask (s : RenderState α) (i : ℕ) : RenderState α :=
  match s.tasks[i]? with
  | none => s
  | some t =>
      if t.gen ≠ s.generation then
        { s with tasks := s.tasks.eraseIdx i }
      else if t.queue.isEmpty then
        { s with tasks := s.tasks.eraseIdx i,
                 indicator := false,
                 finalized := s.finalized ++ [t.gen] }
      else
        { s with grid := s.grid ++ t.queue.take BATCH_SIZE,
                 tasks := s.tasks.set i ⟨t.gen, t.queue.drop BATCH_SIZE⟩ }

/-- Run the cooperative scheduler along an arbitrary schedule of task
indices. -/
def runSchedule (s : RenderState α) (schedule : List ℕ) : RenderState α :=
  schedule.foldl resumeTask s

/-! ## Helper lemmas -/

theorem sanitizeStatus_mem (v : JVal) : sanitizeStatus v ∈ statusValues := by
  unfold sanitizeStatus
  split
  · simp [DEFAULT_STATUS, statusValues]
  · dsimp only
    split
    · next h =>
        rw [List.any_eq_true] at h
        obtain ⟨x, hx, hb⟩ := h
        rw [beq_iff_eq] at hb
        rwa [← hb]
    · simp [DEFAULT_STATUS, statusValues]

theorem sanitizeStatus_of_mem {s : String} (h : s ∈ statusValues) :
    sanitizeStatus (.str s) = s := by
  fin_cases h <;> decide

theorem sanitizeStatus_idem (v : JVal) :
    sanitizeStatus (.str (sanitizeStatus v)) = sanitizeStatus v :=
  sanitizeStatus_of_mem (sanitizeStatus_mem v)

theorem clampFinishCount_nonneg (v : JVal) : 0 ≤ clampFinishCount v := by
  unfold clampFinishCount
  split
  · split
    · exact le_refl 0
    · next h => exact Int.floor_nonneg.mpr (le_of_not_lt h)
  · exact le_refl 0

theorem clampFinishCount_intCast {k : ℤ} (hk : 0 ≤ k) :
    clampFinishCount (.num (.fin (k : ℚ))) = k := by
  unfold clampFinishCount jsToNumber
  have hlt : ¬((k : ℚ) < 0) := by exact_mod_cast not_lt.mpr hk
  simp [hlt, Int.floor_intCast]

theorem jsNullish_num (n : JNum) (b : JVal) : jsNullish (.num n) b = .num n := rfl

theorem jsNullish_arr_absorb (a : JVal) :
    jsNullish (jsNullish a (.arr [])) (.arr []) = jsNullish a (.arr []) := by
  unfold jsNullish
  cases a <;> simp [JVal.isNullish]

/-! ## C5 — `normalizeGame` is total and idempotent -/

/-- C5: `normalizeGame` is total by construction (it is a total function on
every record in the `RawGame` domain, whose fields range over arbitrary JS
values — missing fields are `undefined`, malformed ones any other `JVal`) and
idempotent: normalizing twice equals normalizing once. -/
theorem normalizeGame_total_idem (g : RawGame) :
    normalizeGame (normalizeGame g) = normalizeGame g := by
  unfold normalizeGame
  dsimp only
  congr 1
  · -- status
    rw [sanitizeStatus_idem]
  · -- finish_count
    rw [jsNullish_num]
    rw [clampFinishCount_intCast
      (clampFinishCount_nonneg
        (jsNullish g.finish_count
          (jsNullish g.finishCount (jsNullish g.finish (.num (.fin 0))))))]
  · -- gallery_urls
    rw [jsNullish_arr_absorb]
  · -- genres
    cases g.genres <;> simp [List.filter_filter]

/-! ## C6 — gallery/genre sequence normalization (corrected) -/

/-- The value is a JS array. -/
def isSeq : JVal → Bool
  | .arr _ => true
  | _ => false

/-- The entries of a JS array value (empty for non-arrays). -/
def seqElems : JVal → List JVal
  | .arr xs => xs
  | _ => []

/-- C6 as claimed, at one record: both normalized sequences exist and have
had every falsy/empty entry filtered out. -/
def galleryGenresFilteredClaim (g : RawGame) : Prop :=
  isSeq (normalizeGame g).gallery_urls = true ∧
  isSeq (normalizeGame g).genres = true ∧
  (seqElems (normalizeGame g).gallery_urls).all JVal.truthy = true ∧
  (seqElems (normalizeGame g).genres).all JVal.truthy = true

/-- A record whose gallery contains an empty-string entry. -/
def c6Game : RawGame := { gallery_urls := .arr [.str "", .str "x"] }

/-- C6 counterexample: `normalizeGame` does not filter falsy entries out of
`gallery_urls` — the empty string in `c6Game`'s gallery survives, so the
claimed filtering property fails at this record. -/
theorem normalizeGame_gallery_not_filtered :
    ¬ galleryGenresFilteredClaim c6Game :=
  fun h => absurd h.2.2.1 (by decide)

/-- C6 amended: `genres` always normalizes to a sequence with the falsy
entries filtered out, and `gallery_urls` is never nullish afterward: a
nullish gallery defaults to the empty sequence, while any other gallery
value is passed through unchanged (falsy entries and all). -/
theorem normalizeGame_sequences (g : RawGame) :
    isSeq (normalizeGame g).genres = true ∧
    (seqElems (normalizeGame g).genres).all JVal.truthy = true ∧
    (normalizeGame g).gallery_urls.isNullish = false ∧
    (normalizeGame g).gallery_urls =
      (if g.gallery_urls.isNullish then JVal.arr [] else g.gallery_urls) := by
  refine ⟨?_, ?_, ?_, ?_⟩
  · cases hg : g.genres <;> simp [normalizeGame, isSeq, hg]
  · cases hg : g.genres <;>
      simp [normalizeGame, seqElems, hg, List.all_eq_true]
  · show (jsNullish g.gallery_urls (.arr [])).isNullish = false
    unfold jsNullish
    cases g.gallery_urls <;> simp [JVal.isNullish]
  · show jsNullish g.gallery_urls (.arr []) =
      (if g.gallery_urls.isNullish then JVal.arr [] else g.gallery_urls)
    unfold jsNullish
    rfl

/-! ## C8 — ingestion/sort scenario -/

/-- The scenario library: ingest `[{title:"A"}, {title:"b", rating:80}]`. -/
def c8Library : List RawGame :=
  (serializeGames
    [{ title := .str "A" }, { title := .str "b", rating := .num (.fin 80) }]
    0).1

/-- C8: after ingestion both records normalize to status `not_allocated` and
finish count `0`; alphabetical sort yields titles `["A","b"]` (the compare is
case-insensitive) and score sort yields `["b","A"]` (the unrated record keys
`-Infinity` and sorts after the rated one). -/
theorem c8_scenario :
    c8Library.map (fun g => g.status) =
      [.str "not_allocated", .str "not_allocated"] ∧
    c8Library.map (fun g => g.finish_count) =
      [.num (.fin 0), .num (.fin 0)] ∧
    (sortGames (fun _ => 0) .alphabetical c8Library).map (fun g => g.title) =
      [.str "A", .str "b"] ∧
    (sortGames (fun _ => 0) .score c8Library).map (fun g => g.title) =
      [.str "b", .str "A"] := by
  decide

/-! ## C3 — refinement confirm failure (corrected: dialog is cancelled) -/

/-- A concrete ResultsReady refinement state: target game id 0 present,
three candidates fetched, the second one selected. -/
def c3Candidates : List Candidate :=
  [{ title := .str "One" }, { title := .str "Two" }, { title := .str "Three" }]

def c3State : AppState :=
  { games := (serializeGames [{ title := .str "X" }] 0).1,
    gameIdCounter := 1,
    pendingRefineId := some 0,
    pendingRefineSelection := some ⟨{ title := .str "Two" }, 1⟩,
    pendingRefineMatches := c3Candidates,
    refineDialogHidden := false }

/-- C3 counterexample: on a failed confirm the error is indeed surfaced, but
the candidate list and the pending selection are NOT retained — the `finally`
block cancels the whole dialog, so the workflow cannot stay in ResultsReady
as claimed. -/
theorem confirmRefine_failure_not_resultsReady :
    (confirmRefinePost (fun _ => 0) 0 (.error "boom") c3State).statusMsg =
      "boom" ∧
    AppState.pendingRefineMatches
      (confirmRefinePost (fun _ => 0) 0 (.error "boom") c3State) = [] ∧
    c3State.pendingRefineMatches ≠ [] ∧
    AppState.pendingRefineSelection
      (confirmRefinePost (fun _ => 0) 0 (.error "boom") c3State) = none ∧
    c3State.pendingRefineSelection ≠ none := by
  decide

/-- C3 amended: when the refine request fails, the error message is surfaced
as the status message (marked as an error), and the workflow is cancelled
back to Idle — the pending target id, the selection and the candidate list
are cleared and the dialog hidden; the library itself is untouched. -/
theorem confirmRefine_failure_surfaces_and_cancels (rand : ℕ → ℕ) (cid : ℕ)
    (msg : String) (s : AppState) :
    (confirmRefinePost rand cid (.error msg) s).statusMsg = msg ∧
    (confirmRefinePost rand cid (.error msg) s).statusIsError = true ∧
    (confirmRefinePost rand cid (.error msg) s).pendingRefineId = none ∧
    (confirmRefinePost rand cid (.error msg) s).pendingRefineSelection = none ∧
    (confirmRefinePost rand cid (.error msg) s).pendingRefineMatches = [] ∧
    (confirmRefinePost rand cid (.error msg) s).refineDialogHidden = true ∧
    (confirmRefinePost rand cid (.error msg) s).games = s.games := by
  unfold confirmRefinePost cancelRefineDialog showStatus
  exact ⟨rfl, rfl, rfl, rfl, rfl, rfl, rfl⟩

/-! ## Projection lemmas: the option/filter/persistence pipeline never
touches the games list -/

theorem games_updateStoreFilterOptions (s : AppState) :
    (updateStoreFilterOptions s).games = s.games := rfl

theorem games_updateGenreFilterOptions (s : AppState) :
    (updateGenreFilterOptions s).games = s.games := rfl

theorem games_showStatus (m : String) (e : Bool) (s : AppState) :
    (showStatus m e s).games = s.games := rfl

theorem games_applyFilter (rand : ℕ → ℕ) (b : Bool) (s : AppState) :
    (applyFilter rand b s).games = s.games := by
  unfold applyFilter showStatus
  dsimp only
  split <;> rfl

theorem games_persistGameCache (s : AppState) :
    (persistGameCache s).games = s.games := by
  unfold persistGameCache
  split <;> rfl

theorem games_autoSaveProfile (s : AppState) :
    (autoSaveProfile s).games = s.games := by
  unfold autoSaveProfile
  split <;> rfl

theorem games_cancelRefineDialog (s : AppState) :
    (cancelRefineDialog s).games = s.games := rfl

/-! ## C10 — `updateGameMetadata` on an absent id is a complete no-op -/

/-- C10: when no game in the Library carries the requested client-local id,
`updateGameMetadata` returns `null` and leaves the whole state — library,
cache, filter option lists, selection, and every effect counter (no render,
no cache write, no autosave) — exactly as it was. -/
theorem updateGameMetadata_absent_noop (rand : ℕ → ℕ) (s : AppState) (gid : ℕ)
    (updates : MetaUpdates) (opts : MetaOpts)
    (habs : ∀ g ∈ s.games, g.__id ≠ some gid) :
    updateGameMetadata rand s (some gid) updates opts = (none, s) := by
  have hf : s.games.findIdx? (fun g => g.__id == some gid) = none := by
    rw [List.findIdx?_eq_none_iff]
    intro g hg
    simp [habs g hg]
  unfold updateGameMetadata
  dsimp only
  rw [hf]

/-- A concrete two-game library state for the C10 witness. -/
def c10State : AppState := { games := c8Library }

theorem updateGameMetadata_absent_noop_witness :
    (∀ g ∈ c10State.games, g.__id ≠ some 99) ∧
    updateGameMetadata (fun _ => 0) c10State (some 99)
      { status := some (.str "finished") } { silent := true } =
      (none, c10State) :=
  ⟨by decide,
   updateGameMetadata_absent_noop (fun _ => 0) c10State 99
     { status := some (.str "finished") } { silent := true } (by decide)⟩

/-! ## C4 — refinement confirm success replaces the target in place -/

/-- C4: on a successful confirm, the target's Library slot is replaced by
the serialized (normalized) backend record with the client-local id forced
back to the captured pre-refinement id; every other Library entry is
untouched, the Library keeps its length, the record at the target index had
this very id, and the swapped-in record's title is the response's title. -/
theorem confirmRefine_success_replaces_in_place (rand : ℕ → ℕ) (cid : ℕ)
    (resp : RawGame) (s : AppState) (idx : ℕ)
    (hidx : s.games.findIdx? (fun g => g.__id == some cid) = some idx) :
    (confirmRefinePost rand cid (.ok resp) s).games.length = s.games.length ∧
    (confirmRefinePost rand cid (.ok resp) s).games[idx]? =
      some { normalizeGame resp with __id := some cid } ∧
    (∀ j, j ≠ idx →
      (confirmRefinePost rand cid (.ok resp) s).games[j]? = s.games[j]?) ∧
    (s.games[idx]?.all fun old => old.__id == some cid) = true ∧
    RawGame.title { normalizeGame resp with __id := some cid } = resp.title := by
  obtain ⟨hlt, hp, -⟩ := List.findIdx?_eq_some_iff_getElem.mp hidx
  have hgames : (confirmRefinePost rand cid (.ok resp) s).games =
      s.games.set idx { normalizeGame resp with __id := some cid } := by
    unfold confirmRefinePost serializeGames
    dsimp only
    rw [hidx]
    dsimp only
    rw [games_cancelRefineDialog, games_autoSaveProfile, games_showStatus,
      games_persistGameCache, games_applyFilter, games_updateGenreFilterOptions,
      games_updateStoreFilterOptions]
  refine ⟨?_, ?_, ?_, ?_, rfl⟩
  · rw [hgames, List.length_set]
  · rw [hgames]
    exact List.getElem?_set_self hlt
  · intro j hj
    rw [hgames]
    exact List.getElem?_set_ne (fun h => hj h.symm)
  · rw [List.getElem?_eq_getElem hlt]
    simpa using hp

/-- The concrete pre-confirm state for the C4 witness: one game, id 0. -/
def c4State : AppState :=
  { games := (serializeGames [{ title := .str "X", platform := .str "PC" }] 0).1,
    gameIdCounter := 1,
    pendingRefineId := some 0,
    pendingRefineSelection := some ⟨{ title := .str "Two" }, 1⟩ }

/-- The backend's confirmed record for the C4 witness. -/
def c4Resp : RawGame :=
  { title := .str "Two", platform := .str "PC", rating := .num (.fin 91) }

theorem confirmRefine_success_replaces_in_place_witness :
    c4State.games.findIdx? (fun g => g.__id == some 0) = some 0 ∧
    ((confirmRefinePost (fun _ => 0) 0 (.ok c4Resp) c4State).games.length =
        c4State.games.length ∧
      (confirmRefinePost (fun _ => 0) 0 (.ok c4Resp) c4State).games[0]? =
        some { normalizeGame c4Resp with __id := some 0 } ∧
      (∀ j, j ≠ 0 →
        (confirmRefinePost (fun _ => 0) 0 (.ok c4Resp) c4State).games[j]? =
          c4State.games[j]?) ∧
      (c4State.games[0]?.all fun old => old.__id == some 0) = true ∧
      RawGame.title { normalizeGame c4Resp with __id := some 0 } =
        c4Resp.title) :=
  ⟨by decide,
   confirmRefine_success_replaces_in_place (fun _ => 0) 0 c4Resp c4State 0
     (by decide)⟩

/-! ## C9 — delete-while-refining race: confirm is a no-op on a deleted
target -/

/-- C9: `confirmRefineDialog` re-checks that the remembered client-local id
still exists.  Before the request (state `t`): with the target absent it
cancels the dialog without issuing any request and without touching the
Library.  After the response (state `s`, which may have changed during the
await): with the target absent the success handler applies no mutation — no
record is replaced or reintroduced, nothing is persisted, no autosave or
render fires. -/
theorem confirmRefine_deleted_target_noop (rand : ℕ → ℕ) (cid : ℕ)
    (resp : RawGame) (t s : AppState)
    (hpid : t.pendingRefineId = some cid)
    (hsel : ∃ sel, t.pendingRefineSelection = some sel)
    (habsT : ∀ g ∈ t.games, g.__id ≠ some cid)
    (habsS : ∀ g ∈ s.games, g.__id ≠ some cid) :
    (confirmRefinePre t).1 = none ∧
    (confirmRefinePre t).2.games = t.games ∧
    (confirmRefinePre t).2.pendingRefineId = none ∧
    (confirmRefinePost rand cid (.ok resp) s).games = s.games ∧
    (confirmRefinePost rand cid (.ok resp) s).cache = s.cache ∧
    (confirmRefinePost rand cid (.ok resp) s).cacheWrites = s.cacheWrites ∧
    (confirmRefinePost rand cid (.ok resp) s).autosaveCount = s.autosaveCount ∧
    (confirmRefinePost rand cid (.ok resp) s).renderCount = s.renderCount := by
  obtain ⟨sel, hsel⟩ := hsel
  have hfindT : t.games.find? (fun g => g.__id == some cid) = none := by
    rw [List.find?_eq_none]
    intro g hg
    simp [habsT g hg]
  have hfindS : s.games.findIdx? (fun g => g.__id == some cid) = none := by
    rw [List.findIdx?_eq_none_iff]
    intro g hg
    simp [habsS g hg]
  have hpre : confirmRefinePre t = (none, cancelRefineDialog t) := by
    unfold confirmRefinePre
    rw [hpid, hsel]
    dsimp only
    rw [hfindT]
  have hpost : confirmRefinePost rand cid (.ok resp) s =
      cancelRefineDialog { s with gameIdCounter := s.gameIdCounter + 1 } := by
    unfold confirmRefinePost serializeGames
    dsimp only
    rw [hfindS]
    rfl
  rw [hpre, hpost]
  exact ⟨rfl, rfl, rfl, rfl, rfl, rfl, rfl, rfl⟩

/-- The C9 witness states: `t` is mid-refinement for id 5, which no game in
its two-game library carries; `s` is the same library at response time. -/
def c9State : AppState :=
  { games := c8Library,
    gameIdCounter := 2,
    pendingRefineId := some 5,
    pendingRefineSelection := some ⟨{ title := .str "Two" }, 0⟩ }

theorem confirmRefine_deleted_target_noop_witness :
    c9State.pendingRefineId = some 5 ∧
    (∃ sel, c9State.pendingRefineSelection = some sel) ∧
    (∀ g ∈ c9State.games, g.__id ≠ some 5) ∧
    ((confirmRefinePre c9State).1 = none ∧
      (confirmRefinePre c9State).2.games = c9State.games ∧
      (confirmRefinePre c9State).2.pendingRefineId = none ∧
      (confirmRefinePost (fun _ => 0) 5 (.ok c4Resp) c9State).games =
        c9State.games ∧
      (confirmRefinePost (fun _ => 0) 5 (.ok c4Resp) c9State).cache =
        c9State.cache ∧
      (confirmRefinePost (fun _ => 0) 5 (.ok c4Resp) c9State).cacheWrites =
        c9State.cacheWrites ∧
      (confirmRefinePost (fun _ => 0) 5 (.ok c4Resp) c9State).autosaveCount =
        c9State.autosaveCount ∧
      (confirmRefinePost (fun _ => 0) 5 (.ok c4Resp) c9State).renderCount =
        c9State.renderCount) :=
  ⟨rfl, ⟨_, rfl⟩, by decide,
   confirmRefine_deleted_target_noop (fun _ => 0) 5 c4Resp c9State c9State rfl
     ⟨_, rfl⟩ (by decide) (by decide)⟩

/-! ## C2 — bulk status apply: one render pass, all selected flipped -/

theorem games_refreshSelection (gid : ℕ) (m : RawGame) (s : AppState) :
    (refreshSelection gid m s).games = s.games := by
  unfold refreshSelection
  cases s.selection
  · rfl
  · dsimp only
    split <;> rfl

theorem renderCount_refreshSelection (gid : ℕ) (m : RawGame) (s : AppState) :
    (refreshSelection gid m s).renderCount = s.renderCount := by
  unfold refreshSelection
  cases s.selection
  · rfl
  · dsimp only
    split <;> rfl

theorem renderCount_updateStoreFilterOptions (s : AppState) :
    (updateStoreFilterOptions s).renderCount = s.renderCount := rfl

theorem renderCount_updateGenreFilterOptions (s : AppState) :
    (updateGenreFilterOptions s).renderCount = s.renderCount := rfl

theorem renderCount_persistGameCache (s : AppState) :
    (persistGameCache s).renderCount = s.renderCount := by
  unfold persistGameCache
  split <;> rfl

theorem renderCount_autoSaveProfile (s : AppState) :
    (autoSaveProfile s).renderCount = s.renderCount := by
  unfold autoSaveProfile
  split <;> rfl

/-- One bulk status mutation of one record. -/
def bulkUpd (St : String) (g : RawGame) : RawGame :=
  normalizeGame (applyUpdates g (statusUpdate St))

theorem bulkUpd_id (St : String) (g : RawGame) :
    (bulkUpd St g).__id = g.__id := rfl

theorem bulkUpd_status (St : String) (h : sanitizeStatus (.str St) = St)
    (g : RawGame) : (bulkUpd St g).status = .str St := by
  show JVal.str (sanitizeStatus (.str St)) = .str St
  rw [h]

/-- `markUpd St done g`: `g` with the bulk status applied when its id is one
of the processed ids `done`, untouched otherwise. -/
def markUpd (St : String) (done : List ℕ) (g : RawGame) : RawGame :=
  if done.any (fun id => g.__id == some id) then bulkUpd St g else g

theorem markUpd_id (St : String) (done : List ℕ) (g : RawGame) :
    (markUpd St done g).__id = g.__id := by
  unfold markUpd
  split
  · exact bulkUpd_id St g
  · rfl

theorem map_markUpd_nil (St : String) (l : List RawGame) :
    l.map (markUpd St []) = l := by
  induction l with
  | nil => rfl
  | cons x xs ih => simp [markUpd, ih]

/-- The deferred silent status update as `applyBulkStatus` issues it, fully
characterized when the target id is found at index `i`. -/
theorem updateGameMetadata_deferred (rand : ℕ → ℕ) (s : AppState) (gid : ℕ)
    (St : String) (i : ℕ) (old : RawGame)
    (hfind : s.games.findIdx? (fun g => g.__id == some gid) = some i)
    (hold : s.games[i]? = some old) :
    updateGameMetadata rand s (some gid) (statusUpdate St)
      { silent := true, deferFilter := true } =
      (some (bulkUpd St old),
       autoSaveProfile (persistGameCache (updateGenreFilterOptions
         (updateStoreFilterOptions (refreshSelection gid (bulkUpd St old)
           { s with games := s.games.set i (bulkUpd St old) }))))) := by
  unfold updateGameMetadata
  dsimp only
  rw [hfind]
  dsimp only
  rw [hold]
  rfl

theorem bulkStep_spec (rand : ℕ → ℕ) (St : String) (acc : AppState × ℕ)
    (id : ℕ) (i : ℕ) (old : RawGame)
    (hfind : acc.1.games.findIdx? (fun g => g.__id == some id) = some i)
    (hold : acc.1.games[i]? = some old) :
    (bulkStep rand St acc id).1.games = acc.1.games.set i (bulkUpd St old) ∧
    (bulkStep rand St acc id).1.renderCount = acc.1.renderCount ∧
    (bulkStep rand St acc id).2 = acc.2 + 1 := by
  unfold bulkStep
  rw [updateGameMetadata_deferred rand acc.1 id St i old hfind hold]
  dsimp only
  refine ⟨?_, ?_, rfl⟩
  · rw [games_autoSaveProfile, games_persistGameCache,
      games_updateGenreFilterOptions, games_updateStoreFilterOptions,
      games_refreshSelection]
  · rw [renderCount_autoSaveProfile, renderCount_persistGameCache,
      renderCount_updateGenreFilterOptions,
      renderCount_updateStoreFilterOptions, renderCount_refreshSelection]

/-- The bulk loop, run over any remaining id list `ids` from a state whose
games are the original library with the ids in `done` already flipped:
afterwards exactly `done ++ ids` are flipped, no render pass has run, and
every id was counted as updated. -/
theorem bulk_fold_spec (rand : ℕ → ℕ) (St : String) (ids : List ℕ) :
    ∀ (s : AppState) (orig : List RawGame) (done : List ℕ) (c₀ : ℕ),
    s.games = orig.map (markUpd St done) →
    (orig.map (fun g => g.__id)).Nodup →
    (∀ id ∈ ids, some id ∈ orig.map (fun g => g.__id)) →
    (∀ id ∈ ids, id ∉ done) →
    ids.Nodup →
    (ids.foldl (bulkStep rand St) (s, c₀)).1.games =
        orig.map (markUpd St (done ++ ids)) ∧
    (ids.foldl (bulkStep rand St) (s, c₀)).1.renderCount = s.renderCount ∧
    (ids.foldl (bulkStep rand St) (s, c₀)).2 = c₀ + ids.length := by
  induction ids with
  | nil =>
      intro s orig done c₀ hgames _ _ _ _
      exact ⟨by simpa using hgames, rfl, rfl⟩
  | cons id ids ih =>
      intro s orig done c₀ hgames hnodup hpres hdone hnodupIds
      have hnotin : id ∉ done := hdone id (List.mem_cons_self id ids)
      have hid_mem : some id ∈ orig.map (fun g => g.__id) :=
        hpres id (List.mem_cons_self id ids)
      obtain ⟨g₀, hg₀mem, hg₀id⟩ := List.mem_map.mp hid_mem
      have hsome : (orig.findIdx? (fun g => g.__id == some id)).isSome := by
        rw [List.findIdx?_isSome, List.any_eq_true]
        exact ⟨g₀, hg₀mem, by simp [hg₀id]⟩
      obtain ⟨i, hi⟩ := Option.isSome_iff_exists.mp hsome
      obtain ⟨hlt, hp, -⟩ := List.findIdx?_eq_some_iff_getElem.mp hi
      have horig_id : orig[i].__id = some id := by simpa using hp
      have hpredeq : ((fun g => g.__id == some id) ∘ markUpd St done) =
          (fun g => g.__id == some id) := by
        funext g
        simp [Function.comp, markUpd_id]
      have hfind : s.games.findIdx? (fun g => g.__id == some id) = some i := by
        rw [hgames, List.findIdx?_map, hpredeq]
        exact hi
      have hmark_i : markUpd St done orig[i] = orig[i] := by
        unfold markUpd
        rw [if_neg]
        rw [Bool.not_eq_true, List.any_eq_false]
        intro d hd
        rw [horig_id]
        simp only [Option.some.injEq, beq_iff_eq]
        exact fun h => hnotin (h ▸ hd)
      have hold : s.games[i]? = some (orig[i]) := by
        rw [hgames, List.getElem?_map, List.getElem?_eq_getElem hlt,
          Option.map_some', hmark_i]
      obtain ⟨hg', hr', hc'⟩ :=
        bulkStep_spec rand St (s, c₀) id i (orig[i]) hfind hold
      have hnew : (bulkStep rand St (s, c₀) id).1.games =
          orig.map (markUpd St (done ++ [id])) := by
        rw [hg', hgames]
        apply List.ext_getElem?
        intro k
        rw [List.getElem?_set]
        by_cases hk : i = k
        · subst hk
          rw [if_pos rfl, if_pos (by simpa using hlt), List.getElem?_map,
            List.getElem?_eq_getElem hlt]
          have hbulk : markUpd St (done ++ [id]) orig[i] = bulkUpd St orig[i] := by
            simp [markUpd, List.any_append, horig_id]
          simp [hbulk]
        · rw [if_neg hk, List.getElem?_map, List.getElem?_map]
          cases hko : orig[k]? with
          | none => rfl
          | some gk =>
              have hklt : k < orig.length := by
                by_contra hnk
                rw [List.getElem?_eq_none (le_of_not_lt hnk)] at hko
                exact Option.noConfusion hko
              have hgk : orig[k] = gk := by
                rw [List.getElem?_eq_getElem hklt] at hko
                exact Option.some.inj hko
              have hkid : gk.__id ≠ some id := by
                intro hcon
                apply hk
                have hmi : i < (orig.map (fun g => g.__id)).length := by
                  simpa using hlt
                have hmk : k < (orig.map (fun g => g.__id)).length := by
                  simpa using hklt
                have hinj :
                    (orig.map (fun g => g.__id))[i] =
                      (orig.map (fun g => g.__id))[k] := by
                  rw [List.getElem_map, List.getElem_map, horig_id, hgk, hcon]
                exact (List.Nodup.getElem_inj_iff hnodup).mp hinj
              simp only [Option.map_some']
              congr 1
              unfold markUpd
              rw [List.any_append]
              have hone : [id].any (fun d => gk.__id == some d) = false := by
                simp [hkid]
              rw [hone, Bool.or_false]
      have hstep2 : (bulkStep rand St (s, c₀) id).2 = c₀ + 1 := hc'
      have hpair : bulkStep rand St (s, c₀) id =
          ((bulkStep rand St (s, c₀) id).1, c₀ + 1) := by
        rw [← hstep2]
      have ihres := ih (bulkStep rand St (s, c₀) id).1 orig (done ++ [id])
        (c₀ + 1) hnew hnodup
        (fun id' h' => hpres id' (List.mem_cons_of_mem id h'))
        (fun id' h' => by
          rw [List.mem_append]
          rintro (hin | hin)
          · exact hdone id' (List.mem_cons_of_mem id h') hin
          · have : id' = id := by simpa using hin
            subst this
            exact (List.nodup_cons.mp hnodupIds).1 h')
        (List.nodup_cons.mp hnodupIds).2
      rw [List.foldl_cons, hpair]
      refine ⟨?_, ?_, ?_⟩
      · rw [ihres.1]
        congr 1
        simp
      · rw [ihres.2.1, hr']
      · rw [ihres.2.2]
        simp only [List.length_cons]
        omega

theorem renderCount_showStatus (m : String) (e : Bool) (s : AppState) :
    (showStatus m e s).renderCount = s.renderCount := rfl

theorem renderCount_applyFilter (rand : ℕ → ℕ) (b : Bool) (s : AppState) :
    (applyFilter rand b s).renderCount = s.renderCount + 1 := by
  unfold applyFilter showStatus
  dsimp only
  split <;> rfl

/-- C2: bulk-applying a valid status `St` to a non-empty selection (distinct
selected ids, all present in a library with distinct ids) mutates every
selected game to status `St` through the deferred silent update, leaves every
unselected game untouched, and performs exactly one render pass in total. -/
theorem applyBulkStatus_one_render (rand : ℕ → ℕ) (St : String) (s : AppState)
    (hne : s.selectedIds ≠ [])
    (hselN : s.selectedIds.Nodup)
    (hids : (s.games.map (fun g => g.__id)).Nodup)
    (hpres : ∀ id ∈ s.selectedIds, some id ∈ s.games.map (fun g => g.__id))
    (hSt : St ∈ statusValues) :
    (applyBulkStatus rand St s).renderCount = s.renderCount + 1 ∧
    (applyBulkStatus rand St s).games.length = s.games.length ∧
    (∀ (k : ℕ) (g : RawGame), s.games[k]? = some g →
      s.selectedIds.any (fun id => g.__id == some id) = true →
      (applyBulkStatus rand St s).games[k]? = some (bulkUpd St g) ∧
      (bulkUpd St g).status = .str St ∧ (bulkUpd St g).__id = g.__id) ∧
    (∀ (k : ℕ) (g : RawGame), s.games[k]? = some g →
      s.selectedIds.any (fun id => g.__id == some id) = false →
      (applyBulkStatus rand St s).games[k]? = some g) := by
  have hsan : sanitizeStatus (.str St) = St := sanitizeStatus_of_mem hSt
  have hemp : s.selectedIds.isEmpty = false := by
    cases hsel : s.selectedIds with
    | nil => exact absurd hsel hne
    | cons a l => rfl
  have hStne : (St == "") = false := by
    fin_cases hSt <;> decide
  obtain ⟨hg, hr, hc⟩ :=
    bulk_fold_spec rand St s.selectedIds s s.games [] 0
      (map_markUpd_nil St s.games).symm hids hpres
      (fun id _ h => absurd h (List.not_mem_nil id)) hselN
  have hlen0 : s.selectedIds.length ≠ 0 :=
    fun h => hne (List.length_eq_zero.mp h)
  have happly : applyBulkStatus rand St s =
      showStatus
        (toString "Updated " ++
          toString (s.selectedIds.foldl (bulkStep rand St) (s, 0)).2 ++
          toString " game(s) to " ++
          toString ((statusLabel St).getD "Not allocated") ++ toString ".")
        false
        (applyFilter rand true
          (s.selectedIds.foldl (bulkStep rand St) (s, 0)).1) := by
    unfold applyBulkStatus
    rw [hemp, if_neg Bool.false_ne_true, hStne, if_neg Bool.false_ne_true]
    dsimp only
    rw [hsan]
    rw [if_pos (by rw [hc]; simpa using hlen0)]
  have hgamesFinal : (applyBulkStatus rand St s).games =
      s.games.map (markUpd St s.selectedIds) := by
    rw [happly, games_showStatus, games_applyFilter, hg]
    simp
  refine ⟨?_, ?_, ?_, ?_⟩
  · rw [happly, renderCount_showStatus, renderCount_applyFilter, hr]
  · rw [hgamesFinal, List.length_map]
  · intro k g hkg hany
    have hmk : markUpd St s.selectedIds g = bulkUpd St g := by
      unfold markUpd
      rw [if_pos hany]
    refine ⟨?_, bulkUpd_status St hsan g, bulkUpd_id St g⟩
    rw [hgamesFinal, List.getElem?_map, hkg, Option.map_some', hmk]
  · intro k g hkg hany
    have hmk : markUpd St s.selectedIds g = g := by
      unfold markUpd
      rw [if_neg (by rw [hany]; exact Bool.false_ne_true)]
    rw [hgamesFinal, List.getElem?_map, hkg, Option.map_some', hmk]

/-- The C2 witness state: three ingested games, the first and third
selected. -/
def c2State : AppState :=
  { games := (serializeGames
      [{ title := .str "A" }, { title := .str "B" }, { title := .str "C" }]
      0).1,
    selectedIds := [0, 2] }

theorem applyBulkStatus_one_render_witness :
    c2State.selectedIds ≠ [] ∧
    c2State.selectedIds.Nodup ∧
    (c2State.games.map (fun g => g.__id)).Nodup ∧
    (∀ id ∈ c2State.selectedIds,
      some id ∈ c2State.games.map (fun g => g.__id)) ∧
    "finished" ∈ statusValues ∧
    ((applyBulkStatus (fun _ => 0) "finished" c2State).renderCount =
        c2State.renderCount + 1 ∧
      (applyBulkStatus (fun _ => 0) "finished" c2State).games.length =
        c2State.games.length ∧
      (∀ (k : ℕ) (g : RawGame), c2State.games[k]? = some g →
        c2State.selectedIds.any (fun id => g.__id == some id) = true →
        (applyBulkStatus (fun _ => 0) "finished" c2State).games[k]? =
          some (bulkUpd "finished" g) ∧
        (bulkUpd "finished" g).status = .str "finished" ∧
        (bulkUpd "finished" g).__id = g.__id) ∧
      (∀ (k : ℕ) (g : RawGame), c2State.games[k]? = some g →
        c2State.selectedIds.any (fun id => g.__id == some id) = false →
        (applyBulkStatus (fun _ => 0) "finished" c2State).games[k]? =
          some g)) :=
  ⟨by decide, by decide, by decide, by decide, by decide,
   applyBulkStatus_one_render (fun _ => 0) "finished" c2State (by decide)
     (by decide) (by decide) (by decide) (by decide)⟩

/-! ## C7 — `applyFilter` includes a game iff the conjunction of all active
filters accepts it -/

theorem jsLower_eq_empty_iff (x : String) : jsLower x = "" ↔ x = "" := by
  unfold jsLower
  constructor
  · intro h
    have hdata : x.data.map charLower = [] := congrArg String.data h
    exact String.ext (List.map_eq_nil_iff.mp hdata)
  · intro h
    rw [h]
    rfl

/-- The filter's membership list, as a projection of `applyFilter`. -/
theorem filtered_applyFilter (rand : ℕ → ℕ) (b : Bool) (s : AppState) :
    (applyFilter rand b s).filtered =
      sortGames rand s.sortMode
        (s.games.filter
          (applyFilterPred (jsLower (strTrim s.query)) (jsLower s.storeFilter)
            s.statusFilter s.genreFilter)) := by
  unfold applyFilter showStatus
  dsimp only
  split <;> rfl

/-- Spec-side filter semantics (spec §4.2): a record passes iff every
*active* filter accepts it — the query as a substring of the lowercased
concatenation haystack, the store by exact case-insensitive equality on the
source, the status by exact enum equality (or anything-but-default in
exclude-default mode), and the genre by case-insensitive membership in the
genre set (or an empty genre set under the unknown sentinel). -/
def specFilterAccepts (queryRaw storeF statusF genreF : String)
    (g : RawGame) : Prop :=
  (queryRaw ≠ "" →
    jsIncludes
      (jsLower (g.title.render ++ " " ++ (jsNullish g.platform (.str "")).render
        ++ " " ++ (jsNullish g.source (.str "")).render ++ " "
        ++ g.description.render))
      (jsLower queryRaw) = true) ∧
  (storeF ≠ "" → jsLower (jsOrEmptyStr g.source) = jsLower storeF) ∧
  (statusF ≠ "" →
    (if statusF = "without_not_allocated"
     then sanitizeStatus g.status ≠ DEFAULT_STATUS
     else sanitizeStatus g.status = statusF)) ∧
  (genreF ≠ "" →
    (if genreF = UNKNOWN_GENRE_VALUE
     then seqElems g.genres = []
     else ∃ v ∈ seqElems g.genres, jsLowerVal v = jsLower genreF))

theorem applyFilterPred_iff (queryRaw storeF statusF genreF : String)
    (g : RawGame) :
    applyFilterPred (jsLower queryRaw) (jsLower storeF) statusF genreF g =
        true ↔
      specFilterAccepts queryRaw storeF statusF genreF g := by
  unfold applyFilterPred specFilterAccepts
  dsimp only
  simp only [Bool.and_eq_true, Bool.or_eq_true, beq_iff_eq,
    jsLower_eq_empty_iff]
  constructor
  · rintro ⟨⟨⟨hq, hst⟩, hsf⟩, hg⟩
    refine ⟨?_, ?_, ?_, ?_⟩
    · intro hne
      rcases hq with hq | hq
      · exact absurd hq hne
      · exact hq
    · intro hne
      rcases hst with hst | hst
      · exact absurd hst hne
      · exact hst
    · intro hne
      rcases hsf with hsf | hsf
      · exact absurd hsf hne
      · split at hsf <;> rename_i hmode
        · rw [if_pos (by simpa using hmode)]
          simpa using hsf
        · rw [if_neg (by simpa using hmode)]
          simpa using hsf
    · intro hne
      rcases hg with hg | hg
      · exact absurd hg hne
      · split at hg <;> rename_i hmode
        · rw [if_pos (by simpa using hmode)]
          rcases hg2 : g.genres <;> rw [hg2] at hg <;> simp_all [seqElems]
        · rw [if_neg (by simpa using hmode)]
          rw [List.contains_iff_exists_mem_beq] at hg
          obtain ⟨a, ha, hab⟩ := hg
          obtain ⟨v, hv, hva⟩ := List.mem_map.mp ha
          refine ⟨v, ?_, ?_⟩
          · cases hg2 : g.genres <;> rw [hg2] at hv <;>
              simp_all [seqElems]
          · rw [hva]
            exact (eq_of_beq hab).symm
  · rintro ⟨hq, hst, hsf, hg⟩
    refine ⟨⟨⟨?_, ?_⟩, ?_⟩, ?_⟩
    · by_cases hne : queryRaw = ""
      · exact Or.inl hne
      · exact Or.inr (hq hne)
    · by_cases hne : storeF = ""
      · exact Or.inl hne
      · exact Or.inr (hst hne)
    · by_cases hne : statusF = ""
      · exact Or.inl hne
      · refine Or.inr ?_
        have := hsf hne
        split at this <;> rename_i hmode
        · rw [if_pos (by simpa using hmode)]
          simpa using this
        · rw [if_neg (by simpa using hmode)]
          simpa using this
    · by_cases hne : genreF = ""
      · exact Or.inl hne
      · refine Or.inr ?_
        have := hg hne
        split at this <;> rename_i hmode
        · rw [if_pos (by simpa using hmode)]
          cases hg2 : g.genres <;> rw [hg2] at this <;> simp_all [seqElems]
        · rw [if_neg (by simpa using hmode)]
          obtain ⟨v, hv, hva⟩ := this
          rw [List.contains_iff_exists_mem_beq]
          refine ⟨jsLowerVal v, List.mem_map.mpr ⟨v, ?_, rfl⟩, by simp [hva]⟩
          cases hg2 : g.genres <;> rw [hg2] at hv <;> simp_all [seqElems]

/-- C7: a game is in `applyFilter`'s filtered list iff it is in the Library
and satisfies the conjunction of all active filters (exact/exclude-default
status modes, case-insensitive genre membership with the unknown sentinel
matching exactly the empty genre set). -/
theorem applyFilter_included_iff (rand : ℕ → ℕ) (b : Bool) (s : AppState)
    (g : RawGame) :
    g ∈ (applyFilter rand b s).filtered ↔
      g ∈ s.games ∧
        specFilterAccepts (strTrim s.query) s.storeFilter s.statusFilter
          s.genreFilter g := by
  rw [filtered_applyFilter, (sortGames_perm rand s.sortMode _).mem_iff,
    List.mem_filter, applyFilterPred_iff]

/-! ## C1 — generation-based cancellation: only the last render wins -/

/-- The suspended tasks still carrying the current generation `G`. -/
def liveTasks (G : ℕ) (s : RenderState α) : List (RenderTask α) :=
  s.tasks.filter (fun t => t.gen == G)

/-- Scheduler invariant for target list `L` at generation `G`: the counter
reads `G`, no task is from the future, only `G` ever finalized, and either no
live task remains and the grid already is `L`, or exactly one live task
remains and its queue is precisely what the grid still misses of `L`. -/
def RInv (L : List α) (G : ℕ) (s : RenderState α) : Prop :=
  s.generation = G ∧
  (∀ t ∈ s.tasks, t.gen ≤ G) ∧
  (∀ x ∈ s.finalized, x = G) ∧
  (match liveTasks G s with
   | [] => s.grid = L
   | [t] => s.grid ++ t.queue = L
   | _ => False)

theorem getElem?_decomp {l : List α} {i : ℕ} {t : α} (h : l[i]? = some t) :
    l = l.take i ++ t :: l.drop (i + 1) := by
  obtain ⟨hlt, hget⟩ := List.getElem?_eq_some_iff.mp h
  conv_lhs => rw [← List.take_append_drop i l]
  rw [List.drop_eq_getElem_cons hlt, hget]

theorem resumeTask_inv (L : List α) (G : ℕ) (s : RenderState α) (i : ℕ)
    (h : RInv L G s) : RInv L G (resumeTask s i) := by
  obtain ⟨hgen, hle, hfin, hlive⟩ := h
  unfold resumeTask
  cases ht : s.tasks[i]? with
  | none => exact ⟨hgen, hle, hfin, hlive⟩
  | some t =>
      have hlt : i < s.tasks.length := (List.getElem?_eq_some_iff.mp ht).1
      have hdecomp := getElem?_decomp ht
      have herase : s.tasks.eraseIdx i = s.tasks.take i ++ s.tasks.drop (i + 1) :=
        List.eraseIdx_eq_take_drop_succ s.tasks i
      have hmem_take : ∀ u ∈ s.tasks.take i, u ∈ s.tasks :=
        fun u hu => List.mem_of_mem_take hu
      have hmem_drop : ∀ u ∈ s.tasks.drop (i + 1), u ∈ s.tasks :=
        fun u hu => List.mem_of_mem_drop hu
      have htmem : t ∈ s.tasks := by
        rw [hdecomp]
        exact List.mem_append_right _ (List.mem_cons_self t _)
      have herased_le : ∀ u ∈ s.tasks.take i ++ s.tasks.drop (i + 1), u.gen ≤ G := by
        intro u hu
        rcases List.mem_append.mp hu with hu | hu
        · exact hle u (hmem_take u hu)
        · exact hle u (hmem_drop u hu)
      dsimp only
      split
      · -- stale task: erased, grid untouched
        next hne =>
          refine ⟨hgen, fun u hu => herased_le u (herase ▸ hu), hfin, ?_⟩
          have hnotlive : (t.gen == G) = false := by
            simp only [beq_eq_false_iff_ne, ne_eq]
            rw [hgen] at hne
            exact hne
          have hlive_eq : List.filter (fun u => u.gen == G) s.tasks =
              List.filter (fun u => u.gen == G) (s.tasks.take i) ++
                List.filter (fun u => u.gen == G) (s.tasks.drop (i + 1)) := by
            conv_lhs => rw [hdecomp]
            rw [List.filter_append, List.filter_cons, hnotlive]
            simp
          unfold liveTasks at hlive ⊢
          dsimp only
          rw [herase, List.filter_append]
          rw [hlive_eq] at hlive
          exact hlive
      · next hnn =>
          have hgenG : t.gen = G := by rw [← hgen]; exact not_not.mp hnn
          have hlivecons : liveTasks G s =
              (s.tasks.take i).filter (fun u => u.gen == G) ++
                t :: (s.tasks.drop (i + 1)).filter (fun u => u.gen == G) := by
            unfold liveTasks
            conv_lhs => rw [hdecomp]
            rw [List.filter_append, List.filter_cons]
            simp [hgenG]
          rw [hlivecons] at hlive
          cases hfa : (s.tasks.take i).filter (fun u => u.gen == G) with
          | cons a l =>
              rw [hfa] at hlive
              simp at hlive
          | nil =>
          rw [hfa] at hlive
          cases hfb : (s.tasks.drop (i + 1)).filter (fun u => u.gen == G) with
          | cons a l =>
              rw [hfb] at hlive
              simp at hlive
          | nil =>
          rw [hfb] at hlive
          have hlive2 : s.grid ++ t.queue = L := hlive
          clear hlive
          split
          · -- queue exhausted: finalize
            next hq =>
              have hqnil : t.queue = [] := List.isEmpty_iff.mp hq
              refine ⟨hgen, fun u hu => herased_le u (herase ▸ hu), ?_, ?_⟩
              · intro x hx
                rcases List.mem_append.mp hx with hx | hx
                · exact hfin x hx
                · have : x = t.gen := by simpa using hx
                  rw [this, hgenG]
              · simp only [liveTasks]
                rw [herase, List.filter_append, hfa, hfb]
                rw [hqnil, List.append_nil] at hlive2
                exact hlive2
          · -- work left: emit one batch, suspend again
            next hq =>
              have hset : s.tasks.set i ⟨t.gen, t.queue.drop BATCH_SIZE⟩ =
                  s.tasks.take i ++ ⟨t.gen, t.queue.drop BATCH_SIZE⟩ ::
                    s.tasks.drop (i + 1) := by
                rw [List.set_eq_take_append_cons_drop, if_pos hlt]
              refine ⟨hgen, ?_, hfin, ?_⟩
              · intro u hu
                rw [hset] at hu
                rcases List.mem_append.mp hu with hu | hu
                · exact hle u (hmem_take u hu)
                · rcases List.mem_cons.mp hu with hu | hu
                  · rw [hu]
                    exact hle t htmem
                  · exact hle u (hmem_drop u hu)
              · have hgoal : (s.grid ++ t.queue.take BATCH_SIZE) ++
                    t.queue.drop BATCH_SIZE = L := by
                  rw [List.append_assoc, List.take_append_drop]
                  exact hlive2
                simp only [liveTasks]
                rw [hset, List.filter_append, List.filter_cons, hfa]
                have hlivet : ((⟨t.gen, t.queue.drop BATCH_SIZE⟩ :
                    RenderTask α).gen == G) = true := by simp [hgenG]
                rw [hlivet]
                simp only [if_true]
                rw [hfb]
                exact hgoal

theorem runSchedule_inv (L : List α) (G : ℕ) (s : RenderState α)
    (schedule : List ℕ) (h : RInv L G s) :
    RInv L G (runSchedule s schedule) := by
  induction schedule generalizing s with
  | nil => exact h
  | cons i rest ih => exact ih (resumeTask s i) (resumeTask_inv L G s i h)

theorem renderGridCall_inv (s : RenderState α) (games : List α)
    (htasks : ∀ t ∈ s.tasks, t.gen ≤ s.generation)
    (hfin : s.finalized = []) :
    RInv games (s.generation + 1) (renderGridCall s games) := by
  have hstale : ∀ (ts : List (RenderTask α)),
      (∀ t ∈ ts, t.gen ≤ s.generation) →
      ts.filter (fun t => t.gen == s.generation + 1) = [] := by
    intro ts hts
    rw [List.filter_eq_nil_iff]
    intro t htm
    have := hts t htm
    simp only [beq_iff_eq]
    omega
  have hfin' : ∀ x ∈ s.finalized, x = s.generation + 1 := by
    intro x hx
    rw [hfin] at hx
    exact absurd hx (List.not_mem_nil x)
  unfold renderGridCall
  dsimp only
  split
  · next hempty =>
      refine ⟨rfl, ?_, hfin', ?_⟩
      · intro t ht
        exact Nat.le_succ_of_le (htasks t ht)
      · simp only [liveTasks]
        rw [hstale s.tasks htasks]
        rw [List.isEmpty_iff.mp hempty]
  · next hempty =>
      refine ⟨rfl, ?_, hfin', ?_⟩
      · intro t ht
        rcases List.mem_append.mp ht with ht | ht
        · exact Nat.le_succ_of_le (htasks t ht)
        · have : t = ⟨s.generation + 1, games.drop BATCH_SIZE⟩ := by
            simpa using ht
          rw [this]
      · simp only [liveTasks]
        rw [List.filter_append, hstale s.tasks htasks, List.filter_cons]
        have hsel : ((⟨s.generation + 1, games.drop BATCH_SIZE⟩ :
            RenderTask α).gen == s.generation + 1) = true := by simp
        rw [hsel]
        simp only [if_true, List.filter_nil, List.nil_append]
        exact List.take_append_drop BATCH_SIZE games

theorem renderGridCall_gens (s : RenderState α) (games : List α)
    (htasks : ∀ t ∈ s.tasks, t.gen ≤ s.generation) :
    (∀ t ∈ (renderGridCall s games).tasks,
        t.gen ≤ (renderGridCall s games).generation) ∧
    (renderGridCall s games).finalized = s.finalized ∧
    (renderGridCall s games).generation = s.generation + 1 := by
  unfold renderGridCall
  dsimp only
  split
  · exact ⟨fun t ht => Nat.le_succ_of_le (htasks t ht), rfl, rfl⟩
  · refine ⟨?_, rfl, rfl⟩
    intro t ht
    rcases List.mem_append.mp ht with ht | ht
    · exact Nat.le_succ_of_le (htasks t ht)
    · have : t = ⟨s.generation + 1, games.drop BATCH_SIZE⟩ := by simpa using ht
      rw [this]

theorem renderBurst_inv (calls : List (List α)) :
    ∀ (hne : calls ≠ []) (s : RenderState α),
    (∀ t ∈ s.tasks, t.gen ≤ s.generation) →
    s.finalized = [] →
    RInv (calls.getLast hne) (s.generation + calls.length)
      (renderBurst s calls) := by
  induction calls with
  | nil => exact fun hne => absurd rfl hne
  | cons a rest ih =>
      intro hne s htasks hfin
      cases rest with
      | nil =>
          simpa [renderBurst, List.getLast] using
            renderGridCall_inv s a htasks hfin
      | cons b rest' =>
          obtain ⟨ht', hf', hg'⟩ := renderGridCall_gens s a htasks
          have hne' : (b :: rest') ≠ [] := by simp
          have hres := ih hne' (renderGridCall s a) ht' (hf'.trans hfin)
          have hG : (renderGridCall s a).generation + (b :: rest').length =
              s.generation + (a :: b :: rest').length := by
            rw [hg']
            simp only [List.length_cons]
            omega
          have hL : (a :: b :: rest').getLast hne =
              (b :: rest').getLast hne' := by
            rw [List.getLast_cons hne']
          have hB : renderBurst s (a :: b :: rest') =
              renderBurst (renderGridCall s a) (b :: rest') := rfl
          rw [hB, hL, ← hG]
          exact hres

/-- C1: run any non-empty burst of `renderGrid` calls back to back (no
intervening await) from a quiescent renderer (no suspended tasks, nothing
finalized), then let the cooperative scheduler resume the suspended
`streamRender` tasks in any order whatsoever until none is left.  Each stale
task observes that its captured generation no longer equals the global
counter and aborts without emitting further batches, so the final grid is
exactly the last call's list, the counter reads the last call's generation,
and only that generation ever ran its completion path. -/
theorem renderBurst_last_wins {α : Type} (g₀ : ℕ) (grid₀ : List α)
    (ind₀ : Bool) (calls : List (List α)) (schedule : List ℕ)
    (hne : calls ≠ [])
    (hdrain : (runSchedule
        (renderBurst ⟨g₀, grid₀, ind₀, [], []⟩ calls) schedule).tasks = []) :
    (runSchedule (renderBurst ⟨g₀, grid₀, ind₀, [], []⟩ calls)
        schedule).grid = calls.getLast hne ∧
    (runSchedule (renderBurst ⟨g₀, grid₀, ind₀, [], []⟩ calls)
        schedule).generation = g₀ + calls.length ∧
    (∀ x ∈ (runSchedule (renderBurst ⟨g₀, grid₀, ind₀, [], []⟩ calls)
        schedule).finalized, x = g₀ + calls.length) := by
  have hinv := renderBurst_inv calls hne
    (⟨g₀, grid₀, ind₀, [], []⟩ : RenderState α)
    (fun t ht => absurd ht (List.not_mem_nil t)) rfl
  have hrun := runSchedule_inv (calls.getLast hne) (g₀ + calls.length) _
    schedule hinv
  obtain ⟨hgen, -, hfinal, hlive⟩ := hrun
  refine ⟨?_, hgen, hfinal⟩
  unfold liveTasks at hlive
  rw [hdrain] at hlive
  exact hlive

theorem renderBurst_last_wins_witness :
    ([[1, 2], [3, 4, 5]] : List (List ℕ)) ≠ [] ∧
    (runSchedule (renderBurst ⟨0, [], false, [], []⟩ [[1, 2], [3, 4, 5]])
        [0, 0]).tasks = [] ∧
    (runSchedule (renderBurst ⟨0, [], false, [], []⟩ [[1, 2], [3, 4, 5]])
        [0, 0]).grid = [3, 4, 5] ∧
    (runSchedule (renderBurst ⟨0, [], false, [], []⟩ [[1, 2], [3, 4, 5]])
        [0, 0]).generation = 0 + 2 ∧
    (∀ x ∈ (runSchedule (renderBurst ⟨0, [], false, [], []⟩ [[1, 2], [3, 4, 5]])
        [0, 0]).finalized, x = 0 + 2) := by
  have h := renderBurst_last_wins 0 [] false [[1, 2], [3, 4, 5]] [0, 0]
    (by decide) (by decide)
  exact ⟨by decide, by decide, h.1, h.2.1, h.2.2⟩

end GameLib
